import Mathlib

/-!
Verification of the Nodey workflow execution engine.

The definitions below are a shallow embedding of the TypeScript sources:
* `WorkflowExecutor` (execute / stop / executeNode / executeNodeCore /
  executeTriggerNode / executeActionNode / executeLogicNode /
  evaluateCondition / getNestedValue / getPreviousNodeOutput / log),
* the email node handler `executeEmailNode` and the editor-side
  `EMAIL_DEFINITION.validate` from `node-definitions`.

JavaScript runtime values that flow through the engine (node outputs,
configuration fields, condition operands) are modelled by the inductive
type `JSValue`.  Numbers are modelled as integers-or-NaN: every numeric
value the engine itself produces or that the claims exercise is integral,
and machine floating point is outside the scope of this embedding.
Object identity (reference equality) is modelled by letting strict
equality on non-primitive values be `false`: in the engine a condition's
configured value and a resolved field value never alias.

Real time (Date.now, setTimeout) is modelled by a logical clock: a `tick`
counter in the interpreter state that advances at every logged event.
External effects (the HTTP client, uuid generation) are oracles supplied
in an `Env`.  Cancellation (`stop()`) is modelled by a schedule
`stopAt : Option Nat` in the environment: the abort flag reads `true` as
soon as the logical clock has reached `stopAt`, which captures an
interleaving where `stop()` is invoked at that moment.
-/

namespace Nodey

/-- JavaScript numbers as used by the engine: an integer or NaN.
(Non-integral doubles never arise in the engine's own outputs or in the
claims; `Number(...)` coercion below parses integer literals and yields
NaN for other strings.) -/
inductive JSNum where
  | nan : JSNum
  | int : Int → JSNum
deriving DecidableEq, Repr

/-- JavaScript runtime values flowing through the engine. -/
inductive JSValue where
  | null : JSValue
  | undefined : JSValue
  | bool : Bool → JSValue
  | num : JSNum → JSValue
  | str : String → JSValue
  | obj : List (String × JSValue) → JSValue
  | arr : List JSValue → JSValue

namespace JSValue

/-- Shorthand for an integer number value. -/
def intV (i : Int) : JSValue := .num (.int i)

/-- JavaScript truthiness: `false`, `0`, `NaN`, `""`, `null`, `undefined`
are falsy, everything else (objects and arrays included) is truthy. -/
def truthy : JSValue → Bool
  | .null => false
  | .undefined => false
  | .bool b => b
  | .num .nan => false
  | .num (.int i) => i != 0
  | .str s => s ≠ ""
  | .obj _ => true
  | .arr _ => true

/-- Field lookup on an object's field list (first binding wins, as in a
JavaScript object literal where later duplicates would have been merged
at construction). Missing field reads as `undefined`. -/
def getField (fields : List (String × JSValue)) (k : String) : JSValue :=
  match fields.find? (fun p => p.1 = k) with
  | some p => p.2
  | none => .undefined

/-- Property access `v[k]` as the engine performs it on values it has
already checked to be objects: object fields by name; array access by
decimal index or `length`; anything else reads as `undefined`. -/
def access : JSValue → String → JSValue
  | .obj fields, k => getField fields k
  | .arr elems, k =>
      if k = "length" then intV elems.length
      else
        if !k.data.isEmpty && k.data.all (fun c => c.isDigit) then
          (elems.get? (k.data.foldl
            (fun acc c => acc * 10 + (c.toNat - '0'.toNat)) 0)).getD .undefined
        else .undefined
  | _, _ => .undefined

end JSValue

/-- Split a character list at every occurrence of the separator, as
JavaScript `String.prototype.split` with a one-character separator:
the empty string yields `[""]`, adjacent separators yield `""` pieces. -/
def splitChars (sep : Char) : List Char → List (List Char)
  | [] => [[]]
  | c :: cs =>
      let rest := splitChars sep cs
      if c = sep then [] :: rest
      else
        match rest with
        | r :: rs => (c :: r) :: rs
        | [] => [[c]]

/-- `String.prototype.split` with a one-character separator. -/
def jsSplit (s : String) (sep : Char) : List String :=
  (splitChars sep s.data).map String.mk

/-- Decimal digits to a natural number; `none` when empty or any
character is not a digit. -/
def digitsToNat? : List Char → Option Nat
  | [] => none
  | cs =>
      if cs.all (fun c => c.isDigit) then
        some (cs.foldl (fun acc c => acc * 10 + (c.toNat - '0'.toNat)) 0)
      else none

/-- Whitespace-trim of a character list. -/
def trimChars (cs : List Char) : List Char :=
  ((cs.dropWhile Char.isWhitespace).reverse.dropWhile Char.isWhitespace).reverse

/-- Parse a string as `Number(...)` does for the values in scope:
after trimming, the empty string gives 0, an optional sign followed by
decimal digits gives an integer, anything else gives NaN. -/
def strToNumber (s : String) : JSNum :=
  match trimChars s.data with
  | [] => .int 0
  | '-' :: cs =>
      match digitsToNat? cs with
      | some n => .int (-(n : Int))
      | none => .nan
  | '+' :: cs =>
      match digitsToNat? cs with
      | some n => .int (n : Int)
      | none => .nan
  | cs =>
      match digitsToNat? cs with
      | some n => .int (n : Int)
      | none => .nan

mutual

/-- `String(...)` coercion (default `toString` semantics). -/
def jsToString : JSValue → String
  | .null => "null"
  | .undefined => "undefined"
  | .bool b => if b then "true" else "false"
  | .num .nan => "NaN"
  | .num (.int i) => toString i
  | .str s => s
  | .obj _ => "[object Object]"
  | .arr elems => jsToStringElems elems

/-- `Array.prototype.toString`: elements joined by commas, with `null`
and `undefined` elements printing as the empty string. -/
def jsToStringElems : List JSValue → String
  | [] => ""
  | [v] => jsToStringElem v
  | v :: vs => jsToStringElem v ++ "," ++ jsToStringElems vs

/-- A single array element under `Array.prototype.toString`. -/
def jsToStringElem : JSValue → String
  | .null => ""
  | .undefined => ""
  | v => jsToString v

end

/-- `Number(...)` coercion. Plain objects coerce through their default
string form `"[object Object]"` (hence NaN); arrays coerce through their
joined string form. -/
def jsToNumber : JSValue → JSNum
  | .null => .int 0
  | .undefined => .nan
  | .bool b => .int (if b then 1 else 0)
  | .num n => n
  | .str s => strToNumber s
  | .obj _ => .nan
  | .arr elems => strToNumber (jsToStringElems elems)

/-- `>` on coerced numbers: any comparison involving NaN is `false`. -/
def jsNumGt : JSNum → JSNum → Bool
  | .int a, .int b => a > b
  | _, _ => false

/-- `<` on coerced numbers: any comparison involving NaN is `false`. -/
def jsNumLt : JSNum → JSNum → Bool
  | .int a, .int b => a < b
  | _, _ => false

/-- Strict equality `===`. NaN is not equal to itself; objects and
arrays compare by reference, and the two operands of the condition
evaluator (a configured constant and a freshly resolved field value)
never alias, so non-primitive comparison is `false`. -/
def jsStrictEq : JSValue → JSValue → Bool
  | .null, .null => true
  | .undefined, .undefined => true
  | .bool a, .bool b => a = b
  | .num (.int a), .num (.int b) => a = b
  | .str a, .str b => a = b
  | _, _ => false

/-- A condition as typed in the source:
`{ field: string; operator: string; value: unknown }`. -/
structure Condition where
  field : String
  operator : String
  value : JSValue

/-- Does `pat` occur at the head of `hay`? -/
def charsPrefix : List Char → List Char → Bool
  | [], _ => true
  | _, [] => false
  | p :: ps, h :: hs => p = h && charsPrefix ps hs

/-- Does `pat` occur anywhere in `hay`? -/
def charsContain (hay pat : List Char) : Bool :=
  match hay with
  | [] => pat.isEmpty
  | _ :: hs => charsPrefix pat hay || charsContain hs pat

/-- `String.prototype.includes`. -/
def strIncludes (s sub : String) : Bool :=
  charsContain s.data sub.data

/-- `typeof v === 'object'`: true for `null`, objects and arrays. -/
def jsTypeofObject : JSValue → Bool
  | .null => true
  | .obj _ => true
  | .arr _ => true
  | _ => false

/-- One step of nested-path resolution: step into the accumulator only
when it is a truthy object (`acc && typeof acc === 'object'`), and read
`undefined` otherwise. -/
def nestedStep (acc : JSValue) (part : String) : JSValue :=
  if acc.truthy && jsTypeofObject acc then acc.access part else .undefined

/-- `WorkflowExecutor.getNestedValue`: resolve a dot-separated path
(`path.split('.').reduce(...)`). -/
def getNestedValue (data : JSValue) (path : String) : JSValue :=
  (jsSplit path '.').foldl nestedStep data

/-- `WorkflowExecutor.evaluateCondition`. -/
def evaluateCondition (condition : Condition) (data : JSValue) : Bool :=
  let fieldValue := getNestedValue data condition.field
  match condition.operator with
  | "equals" => jsStrictEq fieldValue condition.value
  | "notEquals" => !jsStrictEq fieldValue condition.value
  | "contains" => strIncludes (jsToString fieldValue) (jsToString condition.value)
  | "greaterThan" => jsNumGt (jsToNumber fieldValue) (jsToNumber condition.value)
  | "lessThan" => jsNumLt (jsToNumber fieldValue) (jsToNumber condition.value)
  | _ => false

/-!
## Workflow data model

Modelled from the spec: the `@/types/workflow` module (enums `NodeType`,
`TriggerType`, `ActionType`, `LogicType` and the interfaces `Workflow`,
`WorkflowNode`, `WorkflowEdge`, `NodeRunSettings`, `WorkflowExecution`,
`ExecutionLog` and the per-subtype config types) is not among the
provided sources; its shape is reproduced here from the spec's data
model section and from how the executor consumes it.  The per-category
discriminated unions (`TriggerNodeData | ActionNodeData |
LogicNodeData`, each pairing a subtype tag with its config type) are
flattened into the single sum `NodeKind`.
-/

/-- Node category. -/
inductive NodeType where
  | trigger
  | action
  | logic
deriving DecidableEq

/-- Execution status of a run. -/
inductive ExecStatus where
  | running
  | completed
  | failed
  | cancelled
deriving DecidableEq

/-- Log severity. -/
inductive LogLevel where
  | info
  | warning
  | error
deriving DecidableEq

/-- Per-node run settings (`timeoutMs`, `retryCount`, `retryDelayMs`,
`continueOnFail`), every field optional. -/
structure RunSettings where
  timeoutMs : Option Nat := none
  retryCount : Option Nat := none
  retryDelayMs : Option Nat := none
  continueOnFail : Option Bool := none

/-- Email action config as typed in the workflow model. -/
structure EmailCfg where
  «to» : List String
  subject : String
  body : String

/-- Node subtype together with its typed config (the flattening of the
source's per-category data unions).  The HTTP config is carried as an
uninterpreted value: the executor forwards it verbatim to the external
HTTP client. -/
inductive NodeKind where
  | manualTrigger
  | webhookTrigger
  | scheduleTrigger (cron : String)
  | emailTrigger
  | httpAction (config : JSValue)
  | emailAction (config : EmailCfg)
  | databaseAction
  | transformAction
  | delayAction (delayMs : Option Int)
  | ifLogic (condition : Condition)
  | switchLogic
  | loopLogic
  | filterLogic

/-- The `nodeType` discriminant of a node's data. -/
def NodeKind.nodeType : NodeKind → NodeType
  | .manualTrigger | .webhookTrigger | .scheduleTrigger _ | .emailTrigger => .trigger
  | .httpAction _ | .emailAction _ | .databaseAction
  | .transformAction | .delayAction _ => .action
  | .ifLogic _ | .switchLogic | .loopLogic | .filterLogic => .logic

/-- `node.data`: label, discriminated subtype+config, optional run
settings. -/
structure NodeData where
  label : String
  kind : NodeKind
  runSettings : Option RunSettings := none

/-- A workflow node (position and UI fields omitted: the engine never
reads them). -/
structure WorkflowNode where
  id : String
  data : NodeData

/-- A workflow edge; `sourceHandle` is the optional branch label. -/
structure WorkflowEdge where
  id : String
  source : String
  target : String
  sourceHandle : Option String := none

/-- A workflow as consumed by the executor. -/
structure Workflow where
  id : String
  name : String
  nodes : List WorkflowNode
  edges : List WorkflowEdge

/-- One execution log entry.  `new Date()` timestamps are modelled by
the interpreter's logical clock. -/
structure ExecutionLog where
  timestamp : Nat
  nodeId : String
  message : String
  level : LogLevel
  data : Option JSValue := none

/-- The execution record built by the executor. -/
structure WorkflowExecution where
  id : String
  workflowId : String
  status : ExecStatus
  startedAt : Nat
  completedAt : Option Nat := none
  logs : List ExecutionLog
  nodeOutputs : List (String × JSValue)
  error : Option String := none

/-!
## The interpreter

`WorkflowExecutor.execute` and its helpers, embedded as a fuel-indexed
state-passing interpreter.  The private mutable fields of the class
(`logs`, `nodeOutputs`) together with the logical clock and the
counters for external calls form `ExecState`.  A thrown JavaScript
error is an `Except.error` carrying the error's message (every error
raised by the executor is an `Error` whose `.message` is what the
`catch` blocks extract).  `none` from a fuel-indexed function means the
recursion depth exceeded the fuel, i.e. the source would still be
recursing (the engine has no cycle detection).
-/

/-- External collaborators and the cancellation schedule:
* `http cfg k` is the outcome of the `k`-th HTTP call of the run
  (the external `executeHttpRequest` service: network I/O);
* `uuid k` is the `k`-th `uuidv4()` drawn in the run;
* `stopAt = some t` schedules `stop()` to be observed once the logical
  clock reaches `t` (`none`: `stop()` is never called). -/
structure Env where
  http : JSValue → Nat → Except String JSValue
  uuid : Nat → String
  stopAt : Option Nat := none

/-- Mutable interpreter state: the executor's `logs` and `nodeOutputs`
fields, the logical clock, and the external-call counters. -/
structure ExecState where
  logs : List ExecutionLog
  nodeOutputs : List (String × JSValue)
  tick : Nat
  httpCalls : Nat
  uuidCalls : Nat

/-- `this.abortController.signal.aborted`, under the cancellation
schedule: `stop()` has been observed once the clock reached `stopAt`. -/
def aborted (env : Env) (s : ExecState) : Bool :=
  match env.stopAt with
  | some t => s.tick ≥ t
  | none => false

/-- `WorkflowExecutor.log`: append an entry stamped with the current
clock; the clock then advances (each logged event is a distinct
instant). -/
def pushLog (s : ExecState) (level : LogLevel) (nodeId message : String)
    (data : Option JSValue := none) : ExecState :=
  { s with
    logs := s.logs ++ [{ timestamp := s.tick, nodeId := nodeId,
                         message := message, level := level, data := data }],
    tick := s.tick + 1 }

/-- Assoc-list update for `this.nodeOutputs[node.id] = output`
(overwrite an existing key, else append). -/
def setOutput : List (String × JSValue) → String → JSValue → List (String × JSValue)
  | [], k, v => [(k, v)]
  | (k', v') :: rest, k, v =>
      if k' = k then (k', v) :: rest else (k', v') :: setOutput rest k v

/-- Assoc-list read for `this.nodeOutputs[id]`; `none` is JavaScript
`undefined` (key absent). -/
def lookupOutput : List (String × JSValue) → String → Option JSValue
  | [], _ => none
  | (k', v) :: rest, k => if k' = k then some v else lookupOutput rest k

/-- `WorkflowExecutor.getPreviousNodeOutput`: the stored output of the
source of the *first* edge targeting the node, with absent or falsy
outputs replaced by `null` (`this.nodeOutputs[incomingEdge.source] ||
null`); `null` when the node has no incoming edge. -/
def getPreviousNodeOutput (w : Workflow) (outputs : List (String × JSValue))
    (node : WorkflowNode) : JSValue :=
  match w.edges.find? (fun e => e.target = node.id) with
  | none => .null
  | some e =>
      match lookupOutput outputs e.source with
      | none => .null
      | some v => if v.truthy then v else .null

/-- The `continueOnFail` sentinel output `{ __error: true, message }`. -/
def errorSentinel (message : String) : JSValue :=
  .obj [("__error", .bool true), ("message", .str message)]

/-- The If-node branch label computed from a stored output (executor
lines: default `'false'`; when the output is a non-null object, a
string `branch` field wins, else a boolean `conditionMet` field; an
array output reads both properties as `undefined` and keeps the
default, exactly as in the source). -/
def branchOf (output : JSValue) : String :=
  match output with
  | .obj fields =>
      match JSValue.getField fields "branch" with
      | .str b => b
      | _ =>
          match JSValue.getField fields "conditionMet" with
          | .bool c => if c then "true" else "false"
          | _ => "false"
  | _ => "false"

/-- Is the node a `LOGIC` node with `logicType === IF`? -/
def isIfLogicNode (node : WorkflowNode) : Bool :=
  match node.data.kind with
  | .ifLogic _ => true
  | _ => false

/-- Branch routing: `if (sourceHandle && sourceHandle !== branch)
continue` — an edge is skipped exactly when the source is an If logic
node and the edge carries a truthy handle different from the branch
label. -/
def edgeSkipped (node : WorkflowNode) (output : JSValue) (edge : WorkflowEdge) : Bool :=
  isIfLogicNode node &&
    (match edge.sourceHandle with
     | some h => h != "" && h != branchOf output
     | none => false)

/-- `WorkflowExecutor.executeTriggerNode`.  The manual trigger's
`timestamp: new Date()` consumes one clock instant. -/
def executeTriggerNode (s : ExecState) (node : WorkflowNode) :
    ExecState × Except String JSValue :=
  match node.data.kind with
  | .manualTrigger =>
      ({ s with tick := s.tick + 1 },
       .ok (.obj [("triggered", .bool true), ("timestamp", .intV s.tick)]))
  | .webhookTrigger =>
      (s, .ok (.obj [("triggered", .bool true), ("method", .str "POST"),
                     ("body", .obj [])]))
  | .scheduleTrigger cron =>
      (s, .ok (.obj [("triggered", .bool true), ("cron", .str cron)]))
  | .emailTrigger =>
      (s, .ok (.obj [("triggered", .bool true), ("from", .str "test@example.com")]))
  | _ => (s, .error "Unknown node type")

/-- `WorkflowExecutor.executeActionNode`.  The HTTP branch is the
executor's `executeHttpRequest` wrapper: it forwards the config to the
external HTTP client (the `env.http` oracle, indexed by the run's
call counter) and converts a thrown error `e` into
`HTTP request failed: e`.  The email branch is the executor's mock
`sendEmail`.  The delay branch computes `delayMs || 1000` and its
`setTimeout` wait is invisible to the logical clock. -/
def executeActionNode (env : Env) (w : Workflow) (s : ExecState)
    (node : WorkflowNode) : ExecState × Except String JSValue :=
  match node.data.kind with
  | .httpAction config =>
      let s' := { s with httpCalls := s.httpCalls + 1 }
      (match env.http config s.httpCalls with
       | .ok response => (s', .ok response)
       | .error e => (s', .error ("HTTP request failed: " ++ e)))
  | .emailAction config =>
      ({ s with uuidCalls := s.uuidCalls + 1 },
       .ok (.obj [("sent", .bool true),
                  ("to", .arr (config.«to».map .str)),
                  ("subject", .str config.subject),
                  ("messageId", .str (env.uuid s.uuidCalls))]))
  | .databaseAction =>
      (s, .ok (.obj [("rows", .arr []), ("affected", .intV 0)]))
  | .transformAction =>
      (s, .ok (.obj [("transformed", getPreviousNodeOutput w s.nodeOutputs node)]))
  | .delayAction delayMs =>
      let d : Int :=
        match delayMs with
        | some v => if v != 0 then v else 1000
        | none => 1000
      (s, .ok (.obj [("delayed", .intV d)]))
  | _ => (s, .error "Unknown node type")

/-- `WorkflowExecutor.executeLogicNode`. -/
def executeLogicNode (w : Workflow) (s : ExecState) (node : WorkflowNode) :
    ExecState × Except String JSValue :=
  match node.data.kind with
  | .ifLogic condition =>
      let previousOutput := getPreviousNodeOutput w s.nodeOutputs node
      let conditionMet := evaluateCondition condition previousOutput
      (s, .ok (.obj [("conditionMet", .bool conditionMet),
                     ("branch", .str (if conditionMet then "true" else "false"))]))
  | .switchLogic => (s, .ok (.obj [("case", .str "default")]))
  | .loopLogic => (s, .ok (.obj [("iterations", .intV 0), ("items", .arr [])]))
  | .filterLogic => (s, .ok (.obj [("filtered", .arr []), ("count", .intV 0)]))
  | _ => (s, .error "Unknown node type")

/-- `WorkflowExecutor.executeNodeCore`: dispatch on the node category. -/
def executeNodeCore (env : Env) (w : Workflow) (node : WorkflowNode)
    (s : ExecState) : ExecState × Except String JSValue :=
  match node.data.kind.nodeType with
  | .trigger => executeTriggerNode s node
  | .action => executeActionNode env w s node
  | .logic => executeLogicNode w s node

/-- The executor's `executeWithTimeout`: a single attempt.  The
real-time timeout race (`setTimeout` aborting a fresh controller after
`timeoutMs`) is outside the logical-time model; a timed-out HTTP call
is represented by the `env.http` oracle returning the corresponding
error. -/
def executeWithTimeout (env : Env) (w : Workflow) (node : WorkflowNode)
    (s : ExecState) : ExecState × Except String JSValue :=
  executeNodeCore env w node s

/-- The executor's per-node attempt loop (`while (true)` with
`attempt`, `retryCount`, `continueOnFail`).  `remaining` is recursion
fuel: `retryCount + 1 - attempt` iterations always suffice, so callers
pass `retryCount + 1`.  The `retryDelayMs` sleep between attempts is
invisible to the logical clock. -/
def attemptLoop (env : Env) (w : Workflow) (node : WorkflowNode)
    (retryCount : Nat) (continueOnFail : Bool) :
    Nat → Nat → ExecState → Option (ExecState × Except String JSValue)
  | 0, _, _ => none
  | remaining + 1, attempt, s =>
      match executeWithTimeout env w node s with
      | (s', .ok output) => some (s', .ok output)
      | (s', .error message) =>
          let attempt' := attempt + 1
          let s'' := pushLog s' .error node.id
            ("Attempt " ++ toString attempt' ++ " failed: " ++ message)
          if attempt' > retryCount then
            if continueOnFail then
              some (pushLog s'' .warning node.id
                      "continueOnFail enabled; proceeding downstream",
                    .ok (errorSentinel message))
            else
              some (s'', .error message)
          else
            attemptLoop env w node retryCount continueOnFail remaining attempt' s''

mutual

/-- `WorkflowExecutor.executeNode`.  `none` means the recursion depth
exceeded the fuel (the source would still be recursing).  The abort
check before the `try` block throws `Execution cancelled` without this
node's own failure log; the `catch` block logs
`Node execution failed: <message>` and rethrows, both for attempt-loop
failures and for failures propagated from downstream recursion. -/
def executeNode (env : Env) (w : Workflow) :
    Nat → WorkflowNode → ExecState → Option (ExecState × Except String JSValue)
  | 0, _, _ => none
  | fuel + 1, node, s =>
      if aborted env s then some (s, .error "Execution cancelled")
      else
        let s := pushLog s .info node.id ("Executing node: " ++ node.data.label)
        let runSettings := node.data.runSettings.getD {}
        let retryCount := runSettings.retryCount.getD 0
        let continueOnFail := runSettings.continueOnFail.getD false
        match attemptLoop env w node retryCount continueOnFail (retryCount + 1) 0 s with
        | none => none
        | some (s, .error message) =>
            some (pushLog s .error node.id ("Node execution failed: " ++ message),
                  .error message)
        | some (s, .ok output) =>
            let s := { s with nodeOutputs := setOutput s.nodeOutputs node.id output }
            let s := pushLog s .info node.id "Node executed successfully" (some output)
            match runDownstream env w fuel node output
                (w.edges.filter (fun e => e.source == node.id)) s with
            | none => none
            | some (s, .error message) =>
                some (pushLog s .error node.id ("Node execution failed: " ++ message),
                      .error message)
            | some (s, .ok _) => some (s, .ok output)

/-- The executor's downstream loop (`for (const edge of
downstreamEdges)`): resolve the target (skip silently when missing),
apply If-branch routing, recurse; a failure of a downstream node
aborts the loop and propagates. -/
def runDownstream (env : Env) (w : Workflow) :
    Nat → WorkflowNode → JSValue → List WorkflowEdge → ExecState →
    Option (ExecState × Except String Unit)
  | 0, _, _, _, _ => none
  | _ + 1, _, _, [], s => some (s, .ok ())
  | fuel + 1, node, output, edge :: rest, s =>
      match w.nodes.find? (fun n => n.id == edge.target) with
      | none => runDownstream env w fuel node output rest s
      | some targetNode =>
          if edgeSkipped node output edge then
            runDownstream env w fuel node output rest s
          else
            match executeNode env w fuel targetNode s with
            | none => none
            | some (s', .error message) => some (s', .error message)
            | some (s', .ok _) => runDownstream env w fuel node output rest s'

end

/-- The trigger loop of `execute` (`for (const triggerNode of
triggerNodes)` with `if (this.abortController.signal.aborted) break`):
observing the abort between iterations silently *breaks*, after which
`execute` proceeds to mark the run completed. -/
def runTriggers (env : Env) (w : Workflow) (fuel : Nat) :
    List WorkflowNode → ExecState → Option (ExecState × Except String Unit)
  | [], s => some (s, .ok ())
  | triggerNode :: rest, s =>
      if aborted env s then some (s, .ok ())
      else
        match executeNode env w fuel triggerNode s with
        | none => none
        | some (s', .error message) => some (s', .error message)
        | some (s', .ok _) => runTriggers env w fuel rest s'

/-- Entry-point selection inside `execute`'s `try` block: either the
explicit `startNodeId` (`Start node not found` when absent from the
node list) or all trigger nodes in node-list order (`No trigger nodes
found in workflow` when there are none). -/
def executeEntry (env : Env) (w : Workflow) (options : Option String) (fuel : Nat)
    (s1 : ExecState) : Option (ExecState × Except String Unit) :=
  match options with
  | some startNodeId =>
      match w.nodes.find? (fun n => n.id == startNodeId) with
      | none => some (s1, .error "Start node not found")
      | some startNode =>
          match executeNode env w fuel startNode s1 with
          | none => none
          | some (s, .error message) => some (s, .error message)
          | some (s, .ok _) => some (s, .ok ())
  | none =>
      let triggerNodes := w.nodes.filter
        (fun node => node.data.kind.nodeType == NodeType.trigger)
      if triggerNodes.isEmpty then
        some (s1, .error "No trigger nodes found in workflow")
      else
        runTriggers env w fuel triggerNodes s1

/-- `WorkflowExecutor.execute`.  The constructor stamps `startedAt` at
instant 0 and draws `uuid 0` for the execution id; the final record is
the shared `this.execution` object as `execute` leaves it: status
`completed` or `failed`, `completedAt` stamped, the accumulated logs
and node outputs attached. -/
def execute (env : Env) (w : Workflow) (options : Option String) (fuel : Nat) :
    Option WorkflowExecution :=
  let s0 : ExecState :=
    { logs := [], nodeOutputs := [], tick := 1, httpCalls := 0, uuidCalls := 1 }
  let s1 := pushLog s0 .info "workflow-start" ("Starting workflow: " ++ w.name)
  match executeEntry env w options fuel s1 with
  | none => none
  | some (s, .ok _) =>
      let s' := pushLog s .info "workflow-end" "Workflow completed successfully"
      some { id := env.uuid 0, workflowId := w.id, status := .completed,
             startedAt := 0, completedAt := some s'.tick,
             logs := s'.logs, nodeOutputs := s'.nodeOutputs, error := none }
  | some (s, .error message) =>
      let s' := pushLog s .error "workflow-error" ("Workflow failed: " ++ message)
      some { id := env.uuid 0, workflowId := w.id, status := .failed,
             startedAt := 0, completedAt := some s'.tick,
             logs := s'.logs, nodeOutputs := s'.nodeOutputs, error := some message }

/-- `WorkflowExecutor.stop`: beyond flipping the abort signal (the
`stopAt` schedule in `Env`), it immediately mutates the shared
execution record to `cancelled` with a completion timestamp. -/
def stopRecord (e : WorkflowExecution) (now : Nat) : WorkflowExecution :=
  { e with status := .cancelled, completedAt := some now }

/-!
## The standalone email node handler and its editor-side validator

`executeEmailNode` from `EmailNode.service.ts` and
`EMAIL_DEFINITION.validate` from `node-definitions.ts`.  Both receive a
`Record<string, unknown>` cast to `EmailNodeConfig`; the `to` field is
kept as an uninterpreted runtime value (the code explicitly re-checks
`Array.isArray`), while `subject`/`body` are strings as declared by
`EmailNodeConfig` (only the `to` check is exercised by the claims, and
it runs first). -/
structure EmailNodeConfig where
  «to» : JSValue
  subject : String
  body : String

/-- `{ success, output?, error? }` as returned by node handlers. -/
structure NodeExecutionResult where
  success : Bool
  output : Option JSValue := none
  error : Option String := none

/-- `Array.isArray(v) && v.length === 0`-style emptiness data for the
checks below: is `v` an array, and its length. -/
def isEmptyToList : JSValue → Bool
  | .arr elems => elems.isEmpty
  | _ => true

/-- `!Array.isArray(v)`. -/
def notArray : JSValue → Bool
  | .arr _ => false
  | _ => true

/-- `executeEmailNode` (EmailNode.service.ts): sequential required-field
checks, then the abort check, then the mocked send.  `freshId` is the
`uuidv4()` message id and `now` the `new Date()` timestamp. -/
def executeEmailNode (config : EmailNodeConfig) (signalAborted : Bool)
    (freshId : String) (now : Nat) : NodeExecutionResult :=
  if notArray config.«to» || isEmptyToList config.«to» then
    { success := false, error := some "At least one recipient is required" }
  else if config.subject = "" || (trimChars config.subject.data).isEmpty then
    { success := false, error := some "Subject is required" }
  else if config.body = "" || (trimChars config.body.data).isEmpty then
    { success := false, error := some "Email body is required" }
  else if signalAborted then
    { success := false, error := some "Execution was cancelled" }
  else
    { success := true,
      output := some (.obj
        [("sent", .bool true),
         ("to", config.«to»),
         ("subject", .str config.subject),
         ("messageId", .str freshId),
         ("timestamp", .intV (Int.ofNat now))]) }

/-- `EMAIL_DEFINITION.validate` (node-definitions.ts): accumulates
error strings; note the recipient message reads
`At least one recipient (To) is required`. -/
def emailDefinitionValidate (config : EmailNodeConfig) : List String :=
  (if notArray config.«to» || isEmptyToList config.«to» then
     ["At least one recipient (To) is required"]
   else []) ++
  (if config.subject = "" || (trimChars config.subject.data).isEmpty then
     ["Subject is required"]
   else [])

/-!
## Concrete fixtures

Environments and workflows used to instantiate the theorems below on
explicit inputs. -/

/-- External world where every HTTP call succeeds with a 200 payload
and uuids are drawn deterministically. -/
def envOk : Env :=
  { http := fun _ _ => .ok (.obj [("status", .intV 200)]),
    uuid := fun k => "id-" ++ toString k,
    stopAt := none }

/-- External world where every HTTP call fails. -/
def envHttpFail : Env :=
  { envOk with http := fun _ _ => .error "connection refused" }

/-- External world where the first two HTTP calls of the run fail and
later ones succeed. -/
def envFlaky : Env :=
  { envOk with
    http := fun _ k =>
      if k < 2 then .error "flaky" else .ok (.obj [("status", .intV 200)]) }

/-- `stop()` scheduled mid-run: the abort flag reads true from logical
instant 5 on. -/
def envStopMidRun : Env := { envOk with stopAt := some 5 }

/-- A workflow with no trigger node at all. -/
def wfNoTrigger : Workflow :=
  { id := "w-notrig", name := "no-trigger",
    nodes := [ { id := "D", data := { label := "Db", kind := .databaseAction } } ],
    edges := [] }

/-- Manual trigger feeding an If node whose condition is true on the
trigger's output, with a `"true"`-handled edge to `A`, a
`"false"`-handled edge to `B` and an unconditional edge to `C`. -/
def wfIf : Workflow :=
  { id := "w-if", name := "if-routing",
    nodes :=
      [ { id := "T", data := { label := "Manual", kind := .manualTrigger } },
        { id := "I",
          data := { label := "If", kind := .ifLogic ⟨"triggered", "equals", .bool true⟩ } },
        { id := "A", data := { label := "DbA", kind := .databaseAction } },
        { id := "B", data := { label := "DbB", kind := .databaseAction } },
        { id := "C", data := { label := "DbC", kind := .databaseAction } } ],
    edges :=
      [ { id := "e0", source := "T", target := "I" },
        { id := "e1", source := "I", target := "A", sourceHandle := some "true" },
        { id := "e2", source := "I", target := "B", sourceHandle := some "false" },
        { id := "e3", source := "I", target := "C" } ] }

/-- Manual trigger, then an HTTP node with `continueOnFail` and default
`retryCount`, then a database node downstream of the HTTP node. -/
def wfCof : Workflow :=
  { id := "w-cof", name := "continue-on-fail",
    nodes :=
      [ { id := "T", data := { label := "Manual", kind := .manualTrigger } },
        { id := "H",
          data := { label := "Http", kind := .httpAction (.obj []), runSettings := some { continueOnFail := some true } } },
        { id := "D", data := { label := "Db", kind := .databaseAction } } ],
    edges :=
      [ { id := "e0", source := "T", target := "H" },
        { id := "e1", source := "H", target := "D" } ] }

/-- Manual trigger, then an HTTP node with `retryCount: 2`. -/
def wfRetry : Workflow :=
  { id := "w-retry", name := "retry",
    nodes :=
      [ { id := "T", data := { label := "Manual", kind := .manualTrigger } },
        { id := "H",
          data := { label := "Http", kind := .httpAction (.obj []), runSettings := some { retryCount := some 2 } } } ],
    edges := [ { id := "e0", source := "T", target := "H" } ] }

/-- Manual trigger with one downstream database node (used with
`envStopMidRun`: the abort is observed at the downstream node's entry
check). -/
def wfStop : Workflow :=
  { id := "w-stop", name := "stop-mid-run",
    nodes :=
      [ { id := "T", data := { label := "Manual", kind := .manualTrigger } },
        { id := "A", data := { label := "Db", kind := .databaseAction } } ],
    edges := [ { id := "e0", source := "T", target := "A" } ] }

/-- Two independent manual triggers (used with `envStopMidRun`: the
abort is observed between the trigger iterations). -/
def wfTwoTriggers : Workflow :=
  { id := "w-two", name := "two-triggers",
    nodes :=
      [ { id := "T1", data := { label := "Manual1", kind := .manualTrigger } },
        { id := "T2", data := { label := "Manual2", kind := .manualTrigger } } ],
    edges := [] }

/-- Log entries counted by the retry claim: a node's per-attempt
failure messages and its success entry. -/
def attemptEntry (nodeId : String) (e : ExecutionLog) : Bool :=
  e.nodeId == nodeId &&
    (charsPrefix "Attempt ".data e.message.data || e.message == "Node executed successfully")

/-- Does the value have an object field `k` holding a string
(`typeof o.k === 'string'`)? -/
def hasStringField (v : JSValue) (k : String) : Bool :=
  match v with
  | .obj fields =>
      match JSValue.getField fields k with
      | .str _ => true
      | _ => false
  | _ => false

/-- Does the value have an object field `k` holding a boolean
(`typeof o.k === 'boolean'`)? -/
def hasBoolField (v : JSValue) (k : String) : Bool :=
  match v with
  | .obj fields =>
      match JSValue.getField fields k with
      | .bool _ => true
      | _ => false
  | _ => false

/-- `s'` carries `s`'s log list as a prefix (the interpreter only ever
appends to the log). -/
def LogsExtend (s s' : ExecState) : Prop :=
  ∃ t, s'.logs = s.logs ++ t

/-!
## Helper lemmas

The interpreter only ever appends to the log list; these lemmas make
that precise and are shared by several of the claim theorems below. -/

theorem LogsExtend.rfl {s : ExecState} : LogsExtend s s := ⟨[], by simp⟩

theorem LogsExtend.of_eq {s s' : ExecState} (h : s'.logs = s.logs) :
    LogsExtend s s' := ⟨[], by simp [h]⟩

theorem LogsExtend.trans {a b c : ExecState} (h₁ : LogsExtend a b)
    (h₂ : LogsExtend b c) : LogsExtend a c := by
  obtain ⟨t₁, e₁⟩ := h₁
  obtain ⟨t₂, e₂⟩ := h₂
  exact ⟨t₁ ++ t₂, by simp [e₂, e₁]⟩

theorem LogsExtend.push {s : ExecState} {level : LogLevel}
    {nodeId message : String} {data : Option JSValue} :
    LogsExtend s (pushLog s level nodeId message data) :=
  ⟨_, Eq.refl _⟩

theorem LogsExtend.mem {s s' : ExecState} (h : LogsExtend s s')
    {e : ExecutionLog} (he : e ∈ s.logs) : e ∈ s'.logs := by
  obtain ⟨t, ht⟩ := h
  rw [ht]
  exact List.mem_append_left _ he

theorem executeNodeCore_logs (env : Env) (w : Workflow) (node : WorkflowNode)
    (s : ExecState) : (executeNodeCore env w node s).1.logs = s.logs := by
  unfold executeNodeCore executeTriggerNode executeActionNode executeLogicNode
  cases node.data.kind <;> simp [NodeKind.nodeType]
  split <;> rfl

theorem attemptLoop_logs (env : Env) (w : Workflow) (node : WorkflowNode)
    (retryCount : Nat) (continueOnFail : Bool) :
    ∀ remaining attempt s s' res,
      attemptLoop env w node retryCount continueOnFail remaining attempt s
        = some (s', res) →
      LogsExtend s s' := by
  intro remaining
  induction remaining with
  | zero =>
      intro attempt s s' res h
      simp [attemptLoop] at h
  | succ n ih =>
      intro attempt s s' res h
      rw [attemptLoop] at h
      rcases hc : executeWithTimeout env w node s with ⟨s₂, r⟩
      have hl₂ : LogsExtend s s₂ := by
        refine .of_eq ?_
        have := executeNodeCore_logs env w node s
        rw [show executeWithTimeout env w node s = executeNodeCore env w node s from
              Eq.refl _] at hc
        rw [hc] at this
        exact this
      rw [hc] at h
      cases r with
      | ok v =>
          simp at h
          obtain ⟨rfl, _⟩ := h
          exact hl₂
      | error message =>
          simp only at h
          split at h
          · split at h
            · simp at h
              obtain ⟨rfl, _⟩ := h
              exact (hl₂.trans .push).trans .push
            · simp at h
              obtain ⟨rfl, _⟩ := h
              exact hl₂.trans .push
          · exact (hl₂.trans .push).trans (ih _ _ _ _ h)

theorem LogsExtend.pushUpd {s : ExecState} {o : List (String × JSValue)}
    {level : LogLevel} {nodeId message : String} {data : Option JSValue} :
    LogsExtend s (pushLog { s with nodeOutputs := o } level nodeId message data) :=
  ⟨_, Eq.refl _⟩

theorem exec_logs (env : Env) (w : Workflow) : ∀ fuel,
    (∀ node s s' res, executeNode env w fuel node s = some (s', res) →
       LogsExtend s s')
    ∧ (∀ node output edges s s' res,
         runDownstream env w fuel node output edges s = some (s', res) →
         LogsExtend s s') := by
  intro fuel
  induction fuel with
  | zero =>
      constructor
      · intro node s s' res h
        simp [executeNode] at h
      · intro node output edges s s' res h
        simp [runDownstream] at h
  | succ n ih =>
      constructor
      · intro node s s' res h
        simp only [executeNode] at h
        split at h
        · simp at h
          obtain ⟨rfl, _⟩ := h
          exact .rfl
        · split at h
          next heq => exact absurd h (by simp)
          next s₂ message heq =>
            simp at h
            obtain ⟨rfl, _⟩ := h
            exact (LogsExtend.push.trans
              (attemptLoop_logs env w node _ _ _ _ _ _ _ heq)).trans .push
          next s₂ output heq =>
            split at h
            next heqD => exact absurd h (by simp)
            next s₃ message heqD =>
              simp at h
              obtain ⟨rfl, _⟩ := h
              exact ((((LogsExtend.push.trans
                (attemptLoop_logs env w node _ _ _ _ _ _ _ heq)).trans
                .pushUpd).trans (ih.2 _ _ _ _ _ _ heqD)).trans .push)
            next s₃ a heqD =>
              simp at h
              obtain ⟨rfl, _⟩ := h
              exact (((LogsExtend.push.trans
                (attemptLoop_logs env w node _ _ _ _ _ _ _ heq)).trans
                .pushUpd).trans (ih.2 _ _ _ _ _ _ heqD))
      · intro node output edges s s' res h
        cases edges with
        | nil =>
            simp only [runDownstream] at h
            simp at h
            obtain ⟨rfl, _⟩ := h
            exact .rfl
        | cons edge rest =>
            simp only [runDownstream] at h
            split at h
            next heqT => exact ih.2 _ _ _ _ _ _ h
            next targetNode heqT =>
              split at h
              · exact ih.2 _ _ _ _ _ _ h
              · split at h
                next heqE => exact absurd h (by simp)
                next s₂ message heqE =>
                  simp at h
                  obtain ⟨rfl, _⟩ := h
                  exact ih.1 _ _ _ _ heqE
                next s₂ a heqE =>
                  exact (ih.1 _ _ _ _ heqE).trans (ih.2 _ _ _ _ _ _ h)

theorem runTriggers_logs (env : Env) (w : Workflow) (fuel : Nat) :
    ∀ triggers s s' res, runTriggers env w fuel triggers s = some (s', res) →
      LogsExtend s s' := by
  intro triggers
  induction triggers with
  | nil =>
      intro s s' res h
      simp [runTriggers] at h
      obtain ⟨rfl, _⟩ := h
      exact .rfl
  | cons t rest ih =>
      intro s s' res h
      simp only [runTriggers] at h
      split at h
      · simp at h
        obtain ⟨rfl, _⟩ := h
        exact .rfl
      · split at h
        next heq => exact absurd h (by simp)
        next s₂ message heq =>
          simp at h
          obtain ⟨rfl, _⟩ := h
          exact (exec_logs env w fuel).1 _ _ _ _ heq
        next s₂ a heq =>
          exact ((exec_logs env w fuel).1 _ _ _ _ heq).trans (ih _ _ _ h)

theorem executeEntry_logs (env : Env) (w : Workflow) (options : Option String)
    (fuel : Nat) (s1 s' : ExecState) (res : Except String Unit)
    (h : executeEntry env w options fuel s1 = some (s', res)) :
    LogsExtend s1 s' := by
  unfold executeEntry at h
  cases options with
  | some startNodeId =>
      simp only at h
      split at h
      · simp at h
        obtain ⟨rfl, _⟩ := h
        exact .rfl
      · split at h
        next heq => exact absurd h (by simp)
        next s₂ message heq =>
          simp at h
          obtain ⟨rfl, _⟩ := h
          exact (exec_logs env w fuel).1 _ _ _ _ heq
        next s₂ a heq =>
          simp at h
          obtain ⟨rfl, _⟩ := h
          exact (exec_logs env w fuel).1 _ _ _ _ heq
  | none =>
      simp only at h
      split at h
      · simp at h
        obtain ⟨rfl, _⟩ := h
        exact .rfl
      · exact runTriggers_logs env w fuel _ _ _ _ h

/-- Decomposition of a successful `execute`: the record's status is
`completed` or `failed` (never `running`, never `cancelled`),
`completedAt` is stamped, `error` is set exactly on failure, the
`workflow-start` entry is in the attached log, and the attached log
ends with `workflow-end` (success) or `workflow-error` (failure). -/
theorem execute_spec (env : Env) (w : Workflow) (options : Option String)
    (fuel : Nat) (r : WorkflowExecution)
    (h : execute env w options fuel = some r) :
    ((r.status = .completed ∧ r.error = none)
      ∨ (r.status = .failed ∧ r.error.isSome))
    ∧ r.completedAt.isSome
    ∧ (∃ e ∈ r.logs, e.nodeId = "workflow-start")
    ∧ (∃ e, r.logs.getLast? = some e
        ∧ (e.nodeId = "workflow-end" ∨ e.nodeId = "workflow-error")) := by
  simp only [execute] at h
  split at h
  next heq => exact absurd h (by simp)
  next s a heq =>
      simp at h
      subst h
      have hstart := executeEntry_logs env w options fuel _ _ _ heq
      refine ⟨Or.inl ⟨Eq.refl _, Eq.refl _⟩, by simp, ?_, ?_⟩
      · refine ⟨⟨1, "workflow-start", "Starting workflow: " ++ w.name, .info, none⟩,
          (LogsExtend.push (s := s)).mem (hstart.mem ?_), Eq.refl _⟩
        simp [pushLog]
      · refine ⟨⟨s.tick, "workflow-end", "Workflow completed successfully", .info, none⟩,
          ?_, Or.inl (Eq.refl _)⟩
        simp [pushLog]
  next s message heq =>
      simp at h
      subst h
      have hstart := executeEntry_logs env w options fuel _ _ _ heq
      refine ⟨Or.inr ⟨Eq.refl _, by simp⟩, by simp, ?_, ?_⟩
      · refine ⟨⟨1, "workflow-start", "Starting workflow: " ++ w.name, .info, none⟩,
          (LogsExtend.push (s := s)).mem (hstart.mem ?_), Eq.refl _⟩
        simp [pushLog]
      · refine ⟨⟨s.tick, "workflow-error", "Workflow failed: " ++ message, .error, none⟩,
          ?_, Or.inr (Eq.refl _)⟩
        simp [pushLog]

/-!
## Claim theorems
-/

/-- C1: for every workflow, options value and external environment,
whenever `execute` returns (i.e. the recursion terminates within the
given fuel — the engine has no cycle detection, so cyclic graphs never
return), the resulting Execution record has status `completed`,
`failed` or `cancelled`, a `completedAt` timestamp, the accumulated log
attached (it retains the `workflow-start` entry and ends with the
`workflow-end`/`workflow-error` entry), and a top-level error exactly
when the run failed; internal node failures and engine-level errors are
caught, never re-thrown to the caller. -/
theorem C1_execute_always_resolves (env : Env) (w : Workflow)
    (options : Option String) (fuel : Nat) (r : WorkflowExecution)
    (h : execute env w options fuel = some r) :
    (r.status = .completed ∨ r.status = .failed ∨ r.status = .cancelled)
    ∧ r.completedAt.isSome
    ∧ (∃ e ∈ r.logs, e.nodeId = "workflow-start")
    ∧ (∃ e, r.logs.getLast? = some e
        ∧ (e.nodeId = "workflow-end" ∨ e.nodeId = "workflow-error"))
    ∧ (r.status = .failed → r.error.isSome) := by
  obtain ⟨hst, hca, hs, hl⟩ := execute_spec env w options fuel r h
  rcases hst with ⟨h₁, h₂⟩ | ⟨h₁, h₂⟩
  · exact ⟨Or.inl h₁, hca, hs, hl, fun hf => by rw [h₁] at hf; cases hf⟩
  · exact ⟨Or.inr (Or.inl h₁), hca, hs, hl, fun _ => h₂⟩

/-- Witness for C1 on a concrete run. -/
theorem C1_execute_always_resolves_witness :
    ∃ r, execute envOk wfIf none 10 = some r
      ∧ (r.status = .completed ∨ r.status = .failed ∨ r.status = .cancelled)
      ∧ r.completedAt.isSome := by
  have hs : (execute envOk wfIf none 10).isSome = true := by rfl
  rcases hx : execute envOk wfIf none 10 with _ | r
  · rw [hx] at hs
    cases hs
  · have hc := C1_execute_always_resolves envOk wfIf none 10 r hx
    exact ⟨r, Eq.refl _, hc.1, hc.2.1⟩

/-- C2: a workflow with zero trigger nodes, run without a
`startNodeId`, yields the fully determined failed record with error
message exactly `No trigger nodes found in workflow`. -/
theorem C2_no_trigger_nodes_failure (env : Env) (w : Workflow) (fuel : Nat)
    (h : ∀ n ∈ w.nodes, n.data.kind.nodeType ≠ NodeType.trigger) :
    execute env w none fuel
      = some ⟨env.uuid 0, w.id, .failed, 0, some 3,
          [⟨1, "workflow-start", "Starting workflow: " ++ w.name, .info, none⟩,
           ⟨2, "workflow-error", "Workflow failed: No trigger nodes found in workflow",
             .error, none⟩],
          [], some "No trigger nodes found in workflow"⟩ := by
  have hfilter : w.nodes.filter
      (fun node => node.data.kind.nodeType == NodeType.trigger) = [] := by
    rw [List.filter_eq_nil_iff]
    intro a ha
    simpa using h a ha
  simp only [execute, executeEntry]
  rw [hfilter]
  rfl

/-- Witness for C2 on a concrete trigger-free workflow. -/
theorem C2_no_trigger_nodes_failure_witness :
    execute envOk wfNoTrigger none 10
      = some ⟨envOk.uuid 0, wfNoTrigger.id, .failed, 0, some 3,
          [⟨1, "workflow-start", "Starting workflow: " ++ wfNoTrigger.name, .info, none⟩,
           ⟨2, "workflow-error", "Workflow failed: No trigger nodes found in workflow",
             .error, none⟩],
          [], some "No trigger nodes found in workflow"⟩ := by
  refine C2_no_trigger_nodes_failure envOk wfNoTrigger 10 ?_
  intro n hn
  simp [wfNoTrigger] at hn
  subst hn
  decide

/-- C3: when an If node's output carries branch label `"true"`, an edge
is skipped exactly when it is labelled `"false"` (edges labelled
`"true"` or carrying no label are followed); the routing applies only
to If nodes — for every other node no edge is ever skipped; processing
a skipped edge performs no node execution at all (it is the same as
processing the remaining edges); and on the concrete If workflow the
`"false"` target `B` has no entry in the returned `nodeOutputs` while
the `"true"` target `A` and the unlabelled target `C` do. -/
theorem C3_if_true_branch_routing :
    (∀ node output edge, isIfLogicNode node = true → branchOf output = "true" →
       (edge.sourceHandle = none ∨ edge.sourceHandle = some "true"
         ∨ edge.sourceHandle = some "false") →
       (edgeSkipped node output edge = true ↔ edge.sourceHandle = some "false"))
    ∧ (∀ node output edge, isIfLogicNode node = false →
        edgeSkipped node output edge = false)
    ∧ (∀ env w fuel node output edge rest s, edgeSkipped node output edge = true →
        runDownstream env w (fuel + 1) node output (edge :: rest) s
          = runDownstream env w fuel node output rest s)
    ∧ (∃ r, execute envOk wfIf none 10 = some r
        ∧ r.status = .completed
        ∧ (lookupOutput r.nodeOutputs "A").isSome = true
        ∧ (lookupOutput r.nodeOutputs "C").isSome = true
        ∧ lookupOutput r.nodeOutputs "B" = none) := by
  refine ⟨?_, ?_, ?_, ?_⟩
  · intro node output edge hIf hBr hMem
    rcases hMem with hh | hh | hh <;>
      simp [edgeSkipped, hIf, hBr, hh]
  · intro node output edge hIf
    simp [edgeSkipped, hIf]
  · intro env w fuel node output edge rest s hskip
    simp only [runDownstream]
    split
    · rfl
    · rw [if_pos hskip]
  · exact ⟨_, Eq.refl _, Eq.refl _, Eq.refl _, Eq.refl _, Eq.refl _⟩

/-- Witness for C3's conditional conjuncts on concrete inputs. -/
theorem C3_if_true_branch_routing_witness :
    (edgeSkipped ⟨"I", ⟨"If", .ifLogic ⟨"x", "equals", .null⟩, none⟩⟩
        (.obj [("conditionMet", .bool true), ("branch", .str "true")])
        ⟨"e", "I", "B", some "false"⟩ = true)
    ∧ (edgeSkipped ⟨"T", ⟨"Manual", .manualTrigger, none⟩⟩
        (.obj [("branch", .str "true")]) ⟨"e", "T", "B", some "false"⟩ = false)
    ∧ (runDownstream envOk wfIf 4 ⟨"I", ⟨"If", .ifLogic ⟨"x", "equals", .null⟩, none⟩⟩
        (.obj [("branch", .str "true")]) [⟨"e2", "I", "B", some "false"⟩]
        ⟨[], [], 0, 0, 0⟩
        = runDownstream envOk wfIf 3 ⟨"I", ⟨"If", .ifLogic ⟨"x", "equals", .null⟩, none⟩⟩
            (.obj [("branch", .str "true")]) [] ⟨[], [], 0, 0, 0⟩) := by
  have h := C3_if_true_branch_routing
  refine ⟨?_, ?_, ?_⟩
  · exact (h.1 ⟨"I", ⟨"If", .ifLogic ⟨"x", "equals", .null⟩, none⟩⟩
      (.obj [("conditionMet", .bool true), ("branch", .str "true")])
      ⟨"e", "I", "B", some "false"⟩ (by rfl) (by rfl)
      (Or.inr (Or.inr (Eq.refl _)))).mpr (Eq.refl _)
  · exact h.2.1 ⟨"T", ⟨"Manual", .manualTrigger, none⟩⟩
      (.obj [("branch", .str "true")]) ⟨"e", "T", "B", some "false"⟩ (by rfl)
  · exact h.2.2.1 envOk wfIf 3 ⟨"I", ⟨"If", .ifLogic ⟨"x", "equals", .null⟩, none⟩⟩
      (.obj [("branch", .str "true")]) ⟨"e2", "I", "B", some "false"⟩ []
      ⟨[], [], 0, 0, 0⟩ (by rfl)

/-- C4: the condition evaluator is a total boolean function: an
operator outside the five known ones evaluates to `false`; under
`greaterThan`/`lessThan` a field value that numerically coerces to NaN
makes the comparison `false`; resolving a dot-separated path reads
`undefined` at a missing field or a non-object step and stays
`undefined` from there on; and on the spec's concrete examples
`{field:"a.b", operator:"greaterThan", value:5}` is true over
`{a:{b:10}}` and false over `{a:{b:"x"}}`. -/
theorem C4_condition_evaluator_total :
    (∀ condition data,
       condition.operator ∉ (["equals", "notEquals", "contains",
         "greaterThan", "lessThan"] : List String) →
       evaluateCondition condition data = false)
    ∧ (∀ condition data, condition.operator = "greaterThan" →
        jsToNumber (getNestedValue data condition.field) = .nan →
        evaluateCondition condition data = false)
    ∧ (∀ condition data, condition.operator = "lessThan" →
        jsToNumber (getNestedValue data condition.field) = .nan →
        evaluateCondition condition data = false)
    ∧ (∀ fields part, (fields.find? (fun p => p.1 = part)).isNone →
        nestedStep (.obj fields) part = .undefined)
    ∧ (∀ acc part, (acc.truthy && jsTypeofObject acc) = false →
        nestedStep acc part = .undefined)
    ∧ (∀ parts : List String, List.foldl nestedStep .undefined parts = .undefined)
    ∧ evaluateCondition ⟨"a.b", "greaterThan", .intV 5⟩
        (.obj [("a", .obj [("b", .intV 10)])]) = true
    ∧ evaluateCondition ⟨"a.b", "greaterThan", .intV 5⟩
        (.obj [("a", .obj [("b", .str "x")])]) = false := by
  refine ⟨?_, ?_, ?_, ?_, ?_, ?_, by rfl, by rfl⟩
  · intro condition data hop
    unfold evaluateCondition
    split <;> simp_all
  · intro condition data hop hnan
    simp only [evaluateCondition, hop]
    rw [hnan]
    cases jsToNumber condition.value <;> rfl
  · intro condition data hop hnan
    simp only [evaluateCondition, hop]
    rw [hnan]
    cases jsToNumber condition.value <;> rfl
  · intro fields part hmiss
    rw [Option.isNone_iff_eq_none] at hmiss
    simp [nestedStep, JSValue.truthy, jsTypeofObject, JSValue.access,
      JSValue.getField, hmiss]
  · intro acc part hfalsy
    simp [nestedStep, hfalsy]
  · intro parts
    induction parts with
    | nil => rfl
    | cons p rest ih => simpa [nestedStep] using ih

/-- Witness for C4's conditional conjuncts on concrete inputs. -/
theorem C4_condition_evaluator_total_witness :
    (evaluateCondition ⟨"a", "weirdOp", .intV 5⟩ (.obj [("a", .intV 1)]) = false)
    ∧ (evaluateCondition ⟨"a.b", "greaterThan", .intV 5⟩
        (.obj [("a", .obj [("b", .str "x")])]) = false)
    ∧ (evaluateCondition ⟨"a.b", "lessThan", .intV 5⟩
        (.obj [("a", .obj [("b", .str "x")])]) = false)
    ∧ (nestedStep (.obj [("a", .intV 1)]) "q" = .undefined)
    ∧ (nestedStep (.str "hello") "a" = .undefined)
    ∧ (["q", "r"].foldl nestedStep .undefined = .undefined) := by
  have h := C4_condition_evaluator_total
  refine ⟨?_, ?_, ?_, ?_, ?_, ?_⟩
  · exact h.1 ⟨"a", "weirdOp", .intV 5⟩ (.obj [("a", .intV 1)]) (by decide)
  · exact h.2.1 ⟨"a.b", "greaterThan", .intV 5⟩
      (.obj [("a", .obj [("b", .str "x")])]) (Eq.refl _) (by rfl)
  · exact h.2.2.1 ⟨"a.b", "lessThan", .intV 5⟩
      (.obj [("a", .obj [("b", .str "x")])]) (Eq.refl _) (by rfl)
  · exact h.2.2.2.1 [("a", .intV 1)] "q" (by rfl)
  · exact h.2.2.2.2.1 (.str "hello") "a" (by rfl)
  · exact h.2.2.2.2.2.1 ["q", "r"]

/-- C5 counterexample: with `stop()` scheduled mid-run (the abort flag
flips at instant 5, strictly between run start and completion, while
node work is in flight), the record returned by `execute` has status
`failed` — with error `Execution cancelled` — and not `cancelled`: the
`cancelled` status written by `stop()` is overwritten by `execute`'s
own catch/epilogue before the record is returned. -/
theorem C5_counterexample_returned_status_not_cancelled :
    ∃ r, execute envStopMidRun wfStop none 10 = some r
      ∧ r.status = .failed
      ∧ r.status ≠ .cancelled
      ∧ r.error = some "Execution cancelled"
      ∧ r.startedAt < 5
      ∧ (∃ t, r.completedAt = some t ∧ 5 < t) := by
  refine ⟨_, Eq.refl _, Eq.refl _, by decide, Eq.refl _, by decide, 7, Eq.refl _, by decide⟩

/-- C5 amended: `stop()` immediately sets the shared record to
`cancelled` with a completion timestamp, but the record finally
returned by `execute` for the run never keeps that status: it is
`completed` or `failed` — `failed` with error `Execution cancelled`
when the abort is observed inside node execution, `completed` when it
is observed only between trigger iterations (the loop silently
breaks). -/
theorem C5_amended_stop_effect (e : WorkflowExecution) (now : Nat)
    (env : Env) (w : Workflow) (options : Option String) (fuel : Nat)
    (r : WorkflowExecution) (h : execute env w options fuel = some r) :
    (stopRecord e now).status = .cancelled
    ∧ (stopRecord e now).completedAt = some now
    ∧ (r.status = .completed ∨ r.status = .failed)
    ∧ r.status ≠ .cancelled
    ∧ (∃ rf, execute envStopMidRun wfStop none 10 = some rf
        ∧ rf.status = .failed ∧ rf.error = some "Execution cancelled")
    ∧ (∃ rc, execute envStopMidRun wfTwoTriggers none 10 = some rc
        ∧ rc.status = .completed
        ∧ (lookupOutput rc.nodeOutputs "T1").isSome = true
        ∧ lookupOutput rc.nodeOutputs "T2" = none) := by
  have hst : r.status = .completed ∨ r.status = .failed := by
    obtain ⟨hs, -, -, -⟩ := execute_spec env w options fuel r h
    rcases hs with ⟨h₁, -⟩ | ⟨h₁, -⟩
    · exact Or.inl h₁
    · exact Or.inr h₁
  refine ⟨Eq.refl _, Eq.refl _, hst, ?_, ?_, ?_⟩
  · rcases hst with h₁ | h₁ <;> rw [h₁] <;> decide
  · exact ⟨_, Eq.refl _, Eq.refl _, Eq.refl _⟩
  · exact ⟨_, Eq.refl _, Eq.refl _, Eq.refl _, Eq.refl _⟩

/-- Witness for C5's amended theorem on a concrete run. -/
theorem C5_amended_stop_effect_witness :
    ∃ r, execute envOk wfIf none 10 = some r
      ∧ (stopRecord ⟨"x", "w", .running, 0, none, [], [], none⟩ 9).status = .cancelled
      ∧ (r.status = .completed ∨ r.status = .failed)
      ∧ r.status ≠ .cancelled := by
  have hs : (execute envOk wfIf none 10).isSome = true := by rfl
  rcases hx : execute envOk wfIf none 10 with _ | r
  · rw [hx] at hs
    cases hs
  · have hc := C5_amended_stop_effect ⟨"x", "w", .running, 0, none, [], [], none⟩ 9
      envOk wfIf none 10 r hx
    exact ⟨r, Eq.refl _, hc.1, hc.2.2.1, hc.2.2.2.1⟩

/-- C6: a node whose run settings carry `continueOnFail: true` and an
exhausted (zero) retry budget synthesizes the sentinel output
`{__error: true, message}` from the attempt's failure message instead
of propagating the failure (general conjunct over the attempt loop),
and on the concrete workflow the failing HTTP node's sentinel is stored
under its id, its downstream database node still executes, and the run
completes. -/
theorem C6_continue_on_fail_sentinel :
    (∀ env w node s s₂ message,
       executeWithTimeout env w node s = (s₂, .error message) →
       attemptLoop env w node 0 true 1 0 s
         = some (pushLog (pushLog s₂ .error node.id ("Attempt 1 failed: " ++ message))
                   .warning node.id "continueOnFail enabled; proceeding downstream",
                 .ok (errorSentinel message)))
    ∧ (∃ r, execute envHttpFail wfCof none 10 = some r
        ∧ r.status = .completed
        ∧ lookupOutput r.nodeOutputs "H"
            = some (errorSentinel "HTTP request failed: connection refused")
        ∧ (lookupOutput r.nodeOutputs "D").isSome = true) := by
  constructor
  · intro env w node s s₂ message hc
    rw [attemptLoop, hc]
    rfl
  · exact ⟨_, Eq.refl _, Eq.refl _, Eq.refl _, Eq.refl _⟩

/-- Witness for C6's general conjunct on a concrete failing node. -/
theorem C6_continue_on_fail_sentinel_witness :
    attemptLoop envHttpFail wfCof
        ⟨"H", ⟨"Http", .httpAction (.obj []), some ⟨none, none, none, some true⟩⟩⟩
        0 true 1 0 ⟨[], [], 0, 0, 0⟩
      = some (pushLog (pushLog ⟨[], [], 0, 1, 0⟩ .error "H"
                ("Attempt 1 failed: " ++ "HTTP request failed: connection refused"))
                .warning "H" "continueOnFail enabled; proceeding downstream",
              .ok (errorSentinel "HTTP request failed: connection refused")) := by
  exact C6_continue_on_fail_sentinel.1 envHttpFail wfCof
    ⟨"H", ⟨"Http", .httpAction (.obj []), some ⟨none, none, none, some true⟩⟩⟩
    ⟨[], [], 0, 0, 0⟩ ⟨[], [], 0, 1, 0⟩ "HTTP request failed: connection refused"
    (by rfl)

/-- C7: with `retryCount: 2` and an HTTP call that fails twice then
succeeds, the run stores the successful response for the node, is not
aborted (status `completed`), the node's log trail is exactly the
executing entry, the two per-attempt failure entries and the success
entry, and the entries counted as that node's attempts (per-attempt
failures plus the success entry) number exactly 3. -/
theorem C7_retry_twice_then_success :
    ∃ r, execute envFlaky wfRetry none 10 = some r
      ∧ r.status = .completed
      ∧ lookupOutput r.nodeOutputs "H" = some (.obj [("status", .intV 200)])
      ∧ (r.logs.filter (fun e => e.nodeId == "H")).map (fun e => e.message)
          = ["Executing node: Http",
             "Attempt 1 failed: HTTP request failed: flaky",
             "Attempt 2 failed: HTTP request failed: flaky",
             "Node executed successfully"]
      ∧ (r.logs.filter (attemptEntry "H")).length = 3 := by
  exact ⟨_, Eq.refl _, Eq.refl _, Eq.refl _, Eq.refl _, Eq.refl _⟩

/-- C8 counterexample: for the missing-recipient condition (`to: []`)
the execute-time message is `At least one recipient is required` while
`EMAIL_DEFINITION.validate` reports
`At least one recipient (To) is required` — two different strings, so
the claim that the two layers produce exactly the same string is false
(the repository's own tests assert both spellings). -/
theorem C8_counterexample_message_mismatch :
    executeEmailNode ⟨.arr [], "Subject", "Body"⟩ false "mid" 0
      = { success := false, output := none,
          error := some "At least one recipient is required" }
    ∧ emailDefinitionValidate ⟨.arr [], "Subject", "Body"⟩
      = ["At least one recipient (To) is required"]
    ∧ "At least one recipient is required"
        ≠ "At least one recipient (To) is required" := by
  exact ⟨Eq.refl _, Eq.refl _, by decide⟩

/-- C8 amended: for every execution context whose config has `to` equal
to the empty array, `executeEmailNode` returns `success: false` with
error exactly `At least one recipient is required`; the editor-side
`EMAIL_DEFINITION.validate` reports the same missing-recipient
condition first in its error list, but as the different string
`At least one recipient (To) is required`. -/
theorem C8_amended_recipient_messages :
    (∀ subject body signalAborted freshId now,
       executeEmailNode ⟨.arr [], subject, body⟩ signalAborted freshId now
         = { success := false, output := none,
             error := some "At least one recipient is required" })
    ∧ (∀ subject body,
        (emailDefinitionValidate ⟨.arr [], subject, body⟩).head?
          = some "At least one recipient (To) is required")
    ∧ "At least one recipient is required"
        ≠ "At least one recipient (To) is required" := by
  exact ⟨fun _ _ _ _ _ => Eq.refl _, fun _ _ => Eq.refl _, by decide⟩

/-- C9: the upstream input (`getPreviousNodeOutput`) is determined by
the first edge, in edge-list order, whose target is the node: no
incoming edge gives `null`; otherwise the stored output of that one
edge's source is used, with an absent or falsy stored value replaced by
`null`; outputs stored for any other source are never consulted (two
output maps agreeing at that one source give the same input); and the
If-logic and Transform handlers consume exactly this value. -/
theorem C9_previous_output_first_edge :
    (∀ w outputs node, w.edges.find? (fun e => e.target = node.id) = none →
       getPreviousNodeOutput w outputs node = .null)
    ∧ (∀ w outputs node e,
        w.edges.find? (fun e => e.target = node.id) = some e →
        getPreviousNodeOutput w outputs node
          = (match lookupOutput outputs e.source with
             | none => .null
             | some v => if v.truthy then v else .null))
    ∧ (∀ (w : Workflow) outputs outputs2 node e,
        w.edges.find? (fun e => e.target = node.id) = some e →
        lookupOutput outputs e.source = lookupOutput outputs2 e.source →
        getPreviousNodeOutput w outputs node = getPreviousNodeOutput w outputs2 node)
    ∧ (∀ (w : Workflow) pre e post (node : WorkflowNode),
        w.edges = pre ++ e :: post →
        (∀ e2 ∈ pre, e2.target ≠ node.id) →
        e.target = node.id →
        w.edges.find? (fun e2 => e2.target = node.id) = some e)
    ∧ (∀ w s node condition, node.data.kind = .ifLogic condition →
        executeLogicNode w s node
          = (s, .ok (.obj
              [("conditionMet", .bool (evaluateCondition condition
                  (getPreviousNodeOutput w s.nodeOutputs node))),
               ("branch", .str (if evaluateCondition condition
                  (getPreviousNodeOutput w s.nodeOutputs node)
                  then "true" else "false"))])))
    ∧ (∀ env w s node, node.data.kind = .transformAction →
        executeActionNode env w s node
          = (s, .ok (.obj [("transformed",
              getPreviousNodeOutput w s.nodeOutputs node)]))) := by
  refine ⟨?_, ?_, ?_, ?_, ?_, ?_⟩
  · intro w outputs node h
    unfold getPreviousNodeOutput
    rw [h]
  · intro w outputs node e h
    unfold getPreviousNodeOutput
    rw [h]
  · intro w outputs outputs2 node e h hagree
    unfold getPreviousNodeOutput
    rw [h]
    dsimp only
    rw [hagree]
  · intro w pre e post node hw hpre he
    rw [hw, List.find?_append]
    have hnone : pre.find? (fun e2 => decide (e2.target = node.id)) = none := by
      rw [List.find?_eq_none]
      intro x hx
      simpa using hpre x hx
    rw [hnone]
    simp [List.find?_cons, he]
  · intro w s node condition h
    simp [executeLogicNode, h]
  · intro env w s node h
    simp [executeActionNode, h]

/-- Witness for C9 on concrete inputs: a node with no incoming edge, a
two-incoming-edge node whose second edge is ignored, a falsy stored
output, and the transform handler consuming the resolved value. -/
theorem C9_previous_output_first_edge_witness :
    (getPreviousNodeOutput wfNoTrigger [] ⟨"D", ⟨"Db", .databaseAction, none⟩⟩ = .null)
    ∧ (getPreviousNodeOutput
        ⟨"w2", "two-in", [],
          [⟨"e1", "S1", "N", none⟩, ⟨"e2", "S2", "N", none⟩]⟩
        [("S1", .bool false), ("S2", .str "seen")]
        ⟨"N", ⟨"N", .databaseAction, none⟩⟩ = .null)
    ∧ (⟨"w2", "two-in", [], [⟨"e1", "S1", "N", none⟩, ⟨"e2", "S2", "N", none⟩]⟩
          : Workflow).edges.find?
            (fun e2 => e2.target = (⟨"N", ⟨"N", .databaseAction, none⟩⟩
              : WorkflowNode).id) = some ⟨"e1", "S1", "N", none⟩
    ∧ (executeActionNode envOk
        ⟨"w2", "two-in", [], [⟨"e1", "S1", "N", none⟩, ⟨"e2", "S2", "N", none⟩]⟩
        ⟨[], [("S1", .str "up")], 0, 0, 0⟩ ⟨"N", ⟨"N", .transformAction, none⟩⟩
        = (⟨[], [("S1", .str "up")], 0, 0, 0⟩,
           .ok (.obj [("transformed", .str "up")]))) := by
  have h := C9_previous_output_first_edge
  refine ⟨?_, ?_, ?_, ?_⟩
  · exact h.1 wfNoTrigger [] ⟨"D", ⟨"Db", .databaseAction, none⟩⟩ (by rfl)
  · have := h.2.1 ⟨"w2", "two-in", [], [⟨"e1", "S1", "N", none⟩, ⟨"e2", "S2", "N", none⟩]⟩
      [("S1", .bool false), ("S2", .str "seen")]
      ⟨"N", ⟨"N", .databaseAction, none⟩⟩ ⟨"e1", "S1", "N", none⟩ (by rfl)
    rw [this]
    rfl
  · exact h.2.2.2.1 ⟨"w2", "two-in", [], [⟨"e1", "S1", "N", none⟩, ⟨"e2", "S2", "N", none⟩]⟩
      [] ⟨"e1", "S1", "N", none⟩ [⟨"e2", "S2", "N", none⟩]
      ⟨"N", ⟨"N", .databaseAction, none⟩⟩ (Eq.refl _) (by intro x hx; cases hx) (Eq.refl _)
  · have := h.2.2.2.2.2 envOk
      ⟨"w2", "two-in", [], [⟨"e1", "S1", "N", none⟩, ⟨"e2", "S2", "N", none⟩]⟩
      ⟨[], [("S1", .str "up")], 0, 0, 0⟩ ⟨"N", ⟨"N", .transformAction, none⟩⟩ (Eq.refl _)
    rw [this]
    rfl

/-- C10: when an If node's stored output is not an object carrying a
string `branch` field or a boolean `conditionMet` field (for example
the `continueOnFail` sentinel), the branch label defaults to `"false"`:
downstream edges labelled `"true"` are skipped while edges labelled
`"false"` or carrying no label are still followed. -/
theorem C10_branch_defaults_false :
    (∀ output, hasStringField output "branch" = false →
       hasBoolField output "conditionMet" = false →
       branchOf output = "false")
    ∧ (∀ node output edge, isIfLogicNode node = true → branchOf output = "false" →
        (edge.sourceHandle = some "true" → edgeSkipped node output edge = true)
        ∧ (edge.sourceHandle = some "false" → edgeSkipped node output edge = false)
        ∧ (edge.sourceHandle = none → edgeSkipped node output edge = false))
    ∧ branchOf (errorSentinel "boom") = "false"
    ∧ hasStringField (errorSentinel "boom") "branch" = false
    ∧ hasBoolField (errorSentinel "boom") "conditionMet" = false := by
  refine ⟨?_, ?_, by rfl, by rfl, by rfl⟩
  · intro output h1 h2
    cases output with
    | obj fields =>
        unfold hasStringField at h1
        unfold hasBoolField at h2
        dsimp only at h1 h2
        unfold branchOf
        dsimp only
        cases hb : JSValue.getField fields "branch"
        case str b => rw [hb] at h1; simp at h1
        all_goals
          dsimp only
          cases hc : JSValue.getField fields "conditionMet"
          case bool c => rw [hc] at h2; simp at h2
          all_goals rfl
    | null => rfl
    | undefined => rfl
    | bool b => rfl
    | num n => rfl
    | str s => rfl
    | arr elems => rfl
  · intro node output edge hIf hBr
    refine ⟨?_, ?_, ?_⟩ <;> intro hh <;> simp [edgeSkipped, hIf, hBr, hh]

/-- Witness for C10 on the sentinel output and concrete edges. -/
theorem C10_branch_defaults_false_witness :
    (branchOf (errorSentinel "x") = "false")
    ∧ (edgeSkipped ⟨"I", ⟨"If", .ifLogic ⟨"f", "equals", .null⟩, none⟩⟩
        (errorSentinel "x") ⟨"e", "I", "A", some "true"⟩ = true)
    ∧ (edgeSkipped ⟨"I", ⟨"If", .ifLogic ⟨"f", "equals", .null⟩, none⟩⟩
        (errorSentinel "x") ⟨"e", "I", "B", some "false"⟩ = false)
    ∧ (edgeSkipped ⟨"I", ⟨"If", .ifLogic ⟨"f", "equals", .null⟩, none⟩⟩
        (errorSentinel "x") ⟨"e", "I", "C", none⟩ = false) := by
  have h := C10_branch_defaults_false
  have hBr : branchOf (errorSentinel "x") = "false" :=
    h.1 (errorSentinel "x") (by rfl) (by rfl)
  have hRoute := h.2.1 ⟨"I", ⟨"If", .ifLogic ⟨"f", "equals", .null⟩, none⟩⟩
    (errorSentinel "x")
  exact ⟨hBr,
    (hRoute ⟨"e", "I", "A", some "true"⟩ (by rfl) hBr).1 (Eq.refl _),
    (hRoute ⟨"e", "I", "B", some "false"⟩ (by rfl) hBr).2.1 (Eq.refl _),
    (hRoute ⟨"e", "I", "C", none⟩ (by rfl) hBr).2.2 (Eq.refl _)⟩

end Nodey
